import Mathlib

/-
Formal model of the SDL3 run-loop bridge (`Sdl::Loop::Sdl3Runner`,
src/src/pkg-sdl/Sdl/Loop/Sdl3Runner.cpp) and of the sliding-window FPS counter
(`FpsCounter`, src/demo/hello-sdl/FpsCounter.cpp) of the tx-pkg-misc repository,
together with theorems checking the natural-language specification against the
code.

Modelling conventions:
* C++ `int` values (exit codes, key codes, clock readings) are modelled as
  `Int`; the runner only stores and moves these values, it never computes with
  them, so no overflow can occur and `Int` is faithful.
* The boost::asio experimental channel of capacity 1 used for quit
  notification is modelled by `Channel`: at most one buffered value plus a
  FIFO list of pending `async_receive` operations (waiters).  `try_send`
  completes the earliest pending receive if any, otherwise buffers the value
  if the single buffer slot is free, otherwise does nothing (it fails).
* The cooperative world is recorded in the state: `resumed` lists the waiters
  whose `async_receive` has completed, together with the value they received.
* Handler hook invocations are recorded in a ghost `trace` field.
-/

namespace Sdl3

/-- SDL_AppResult: SDL_APP_CONTINUE / SDL_APP_SUCCESS / SDL_APP_FAILURE. -/
inductive SdlAppResult where
  | cont
  | success
  | failure
deriving DecidableEq, Repr

/-- SDL events relevant to `Sdl3Runner::DoEvent`: SDL_EVENT_QUIT,
SDL_EVENT_KEY_DOWN with a key code, and all other events. -/
inductive SdlEvent where
  | quit
  | keyDown (key : Int)
  | other (tag : Nat)
deriving DecidableEq, Repr

/-- SDLK_ESCAPE key code (0x1b). -/
def SDLK_ESCAPE : Int := 27

/-- Ghost record of one Handler hook invocation. -/
inductive Hook where
  | started
  | update
  | event (e : SdlEvent)
  | stopping
deriving DecidableEq, Repr

/-- Modelled from the spec: `App::Loop::UpdateCtx` (the FrameClock of spec
section 4.3) is declared in the `App/Loop` package which is not among the
provided sources; only its use sites (`_updateCtx.Initialize()`,
`_updateCtx.Tick()`) appear in Sdl3Runner.cpp.  Per the spec it tracks the
session start timestamp, last-tick timestamp, a monotonically increasing frame
index, the last delta, and the accumulated session elapsed time; the monotonic
clock reading is supplied by the platform (`now` parameters below). -/
structure UpdateCtx where
  sessionStart : Int
  lastTick : Int
  frameIndex : Nat
  lastDelta : Int
  elapsed : Int
deriving DecidableEq, Repr

/-- Modelled from the spec (section 4.3): `Initialize()` records session start
and resets the frame index. -/
def UpdateCtx.Initialize (now : Int) : UpdateCtx :=
  { sessionStart := now, lastTick := now, frameIndex := 0, lastDelta := 0, elapsed := 0 }

/-- Modelled from the spec (section 4.3): `Tick()` computes the delta against
the last tick, advances the frame index and accumulates session elapsed. -/
def UpdateCtx.Tick (ctx : UpdateCtx) (now : Int) : UpdateCtx :=
  { sessionStart := ctx.sessionStart
    lastTick := now
    frameIndex := ctx.frameIndex + 1
    lastDelta := now - ctx.lastTick
    elapsed := now - ctx.sessionStart }

/-- The quit-notification channel `_quitChannel`
(`boost::asio::experimental::channel<void(error_code, int)>` with capacity 1):
one optional buffered value and the FIFO queue of pending receives. -/
structure Channel where
  buffer : Option Int
  waiters : List Nat
deriving DecidableEq, Repr

/-- State of one `Sdl3Runner` object plus the cooperative bookkeeping.
Fields mirror the data members of Sdl3Runner.h: `_running`, `_exitCode`,
`_quitChannel` (`none` until lazily created), `_window` / `_renderer`
(modelled as present-or-null flags), `_handler` (present-or-null flag) and
`_updateCtx`.  `resumed` records which waiters have had their
`async_receive` completed and with which value; `trace` records the Handler
hook invocations. -/
structure RState where
  running : Bool
  exitCode : Int
  channel : Option Channel
  resumed : List (Nat × Int)
  window : Bool
  renderer : Bool
  handlerSet : Bool
  ctx : UpdateCtx
  trace : List Hook
deriving DecidableEq, Repr

/-- State of a freshly constructed `Sdl3Runner(options)`: the member
initializers give `_running{false}`, `_exitCode{0}`, a null `_quitChannel`,
null window/renderer, no handler; `_updateCtx{*this}` is default timing
state before `Initialize`. -/
def mkRunner : RState :=
  { running := false
    exitCode := 0
    channel := none
    resumed := []
    window := false
    renderer := false
    handlerSet := false
    ctx := { sessionStart := 0, lastTick := 0, frameIndex := 0, lastDelta := 0, elapsed := 0 }
    trace := [] }

/-- Embedding of `Sdl3Runner::RequestQuit(int exitCode)`
(Sdl3Runner.cpp:54-67): store the exit code (unconditionally), clear
`_running`, and if the channel exists, `try_send` the code on it: the send
completes the earliest pending receive if there is one, otherwise buffers the
value if the capacity-1 buffer is free, otherwise fails (doing nothing). -/
def RequestQuit (s : RState) (exitCode : Int) : RState :=
  let s1 : RState := { s with exitCode := exitCode, running := false }
  match s1.channel with
  | none => s1
  | some ch =>
    match ch.waiters with
    | w :: rest =>
      { s1 with channel := some { buffer := ch.buffer, waiters := rest }
                resumed := s1.resumed ++ [(w, exitCode)] }
    | [] =>
      match ch.buffer with
      | none => { s1 with channel := some { buffer := some exitCode, waiters := [] } }
      | some _ => s1

/-- Embedding of `Sdl3Runner::Finish(const FinishData&)` (Sdl3Runner.cpp:48-52),
which forwards `finishData.ExitCode` to `RequestQuit`. -/
def Finish (s : RState) (finishExitCode : Int) : RState :=
  RequestQuit s finishExitCode

/-- Outcome of one `WaitForQuit` call: resolved without waiting for a further
send, carrying the exit code, or suspended as a registered waiter. -/
inductive WaitResult where
  | immediate (code : Int)
  | suspended
deriving DecidableEq, Repr

/-- Embedding of `Sdl3Runner::WaitForQuit()` (Sdl3Runner.cpp:69-94), invoked
by cooperative task `wid`: if `_running` is already false, return the stored
exit code at once; otherwise lazily create the channel if absent, then
`async_receive`: a buffered value completes the receive at once, otherwise the
task is appended to the pending receives and suspends. -/
def WaitForQuit (s : RState) (wid : Nat) : RState × WaitResult :=
  if s.running = false then
    (s, WaitResult.immediate s.exitCode)
  else
    let ch : Channel :=
      match s.channel with
      | none => { buffer := none, waiters := [] }
      | some c => c
    match ch.buffer with
    | some v =>
      ({ s with channel := some { buffer := none, waiters := ch.waiters }
                resumed := s.resumed ++ [(wid, v)] },
        WaitResult.immediate v)
    | none =>
      ({ s with channel := some { buffer := none, waiters := ch.waiters ++ [wid] } },
        WaitResult.suspended)

/-- Behaviour of the external `Sdl3Handler` collaborator (spec section 6).
`startedOk` is the Bool returned by the `Started` hook; `update` maps the
timing context passed to the `Update` hook to its Bool result together with
an optional `RequestQuit(code)` the hook performs on the runner during the
call; `sdl3Event` likewise gives the `Sdl3Event` hook's `SDL_AppResult`
result (which `DoEvent` discards) and an optional quit request. -/
structure Handler where
  startedOk : Bool
  update : UpdateCtx → Bool × Option Int
  sdl3Event : SdlEvent → SdlAppResult × Option Int

/-- The `Sdl3Runner::Options` callbacks that matter for the modelled
observables: `OnInited` is `none` when the callback is not set and `some b`
when it is set and returns `b`.  `OnQuitting`, `OnRender` and `OnEvent` never
mutate the modelled runner state (their results are discarded), so only their
presence is recorded. -/
structure Options where
  onInited : Option Bool
  hasOnQuitting : Bool
  hasOnRender : Bool
  hasOnEvent : Bool

/-- Outcomes of the platform (SDL) resource acquisitions performed in
`DoInit`: whether `SDL_CreateWindow` and `SDL_CreateRenderer` succeed
(`SDL_SetRenderVSync` failure only logs a warning and retries disabled,
affecting no modelled observable). -/
structure Env where
  createWindowOk : Bool
  createRendererOk : Bool

/-- Embedding of `Sdl3Runner::DoInit()` (Sdl3Runner.cpp:126-183): create the
window (failure aborts), create the renderer (failure destroys the window and
aborts), set vsync (never fatal), run the optional `OnInited` callback
(failure aborts), then invoke the Handler's `Started` hook; a false result
aborts with SDL_APP_FAILURE, otherwise SDL_APP_CONTINUE. -/
def DoInit (env : Env) (opts : Options) (h : Handler) (s : RState) :
    RState × SdlAppResult :=
  if env.createWindowOk = false then
    (s, SdlAppResult.failure)
  else
    let s1 : RState := { s with window := true }
    if env.createRendererOk = false then
      ({ s1 with window := false }, SdlAppResult.failure)
    else
      let s2 : RState := { s1 with renderer := true }
      match opts.onInited with
      | some false => (s2, SdlAppResult.failure)
      | _ =>
        let s3 : RState := { s2 with trace := s2.trace ++ [Hook.started] }
        if h.startedOk = false then (s3, SdlAppResult.failure)
        else (s3, SdlAppResult.cont)

/-- Embedding of `Sdl3Runner::DoQuit()` (Sdl3Runner.cpp:185-209): invoke the
Handler's `Stopping` hook, run the optional `OnQuitting` callback (no modelled
effect), destroy renderer and window, clear `_running` and release the
handler. -/
def DoQuit (s : RState) : RState :=
  let s1 : RState := { s with trace := s.trace ++ [Hook.stopping] }
  { s1 with renderer := false, window := false, running := false, handlerSet := false }

/-- Embedding of `Sdl3Runner::DoIterate()` (Sdl3Runner.cpp:211-241): when
`_running` is already false return SDL_APP_SUCCESS at once (no tick, no
hooks, no render); otherwise tick the frame clock, invoke the Handler's
`Update` hook (applying any quit request it makes), end the loop with
SDL_APP_SUCCESS when the hook returns false, otherwise render/present (no
modelled effect) and continue. -/
def DoIterate (h : Handler) (s : RState) (now : Int) : RState × SdlAppResult :=
  if s.running = false then
    (s, SdlAppResult.success)
  else
    let s1 : RState := { s with ctx := s.ctx.Tick now }
    let r : Bool × Option Int := h.update s1.ctx
    let s2 : RState := { s1 with trace := s1.trace ++ [Hook.update] }
    let s3 : RState :=
      match r.2 with
      | some c => RequestQuit s2 c
      | none => s2
    if r.1 = false then (s3, SdlAppResult.success)
    else (s3, SdlAppResult.cont)

/-- Invocation of the Handler's `Sdl3Event` hook from `DoEvent`: the hook's
`SDL_AppResult` is discarded by the code; an optional quit request made inside
the hook is applied; the optional `OnEvent` callback result is discarded too;
`DoEvent` then returns SDL_APP_CONTINUE. -/
def handlerEvent (h : Handler) (s : RState) (e : SdlEvent) : RState × SdlAppResult :=
  let r : SdlAppResult × Option Int := h.sdl3Event e
  let s1 : RState := { s with trace := s.trace ++ [Hook.event e] }
  let s2 : RState :=
    match r.2 with
    | some c => RequestQuit s1 c
    | none => s1
  (s2, SdlAppResult.cont)

/-- Embedding of `Sdl3Runner::DoEvent(SDL_Event*)` (Sdl3Runner.cpp:243-268):
SDL_EVENT_QUIT and the ESC key request quit with code 0 and end the loop with
SDL_APP_SUCCESS without invoking the Handler hook; every other event is
forwarded to the Handler's `Sdl3Event` hook and the loop continues. -/
def DoEvent (h : Handler) (s : RState) (e : SdlEvent) : RState × SdlAppResult :=
  match e with
  | SdlEvent.quit => (RequestQuit s 0, SdlAppResult.success)
  | SdlEvent.keyDown k =>
    if k = SDLK_ESCAPE then (RequestQuit s 0, SdlAppResult.success)
    else handlerEvent h s (SdlEvent.keyDown k)
  | SdlEvent.other tag => handlerEvent h s (SdlEvent.other tag)

/-- One step of the platform main loop: an `iterate` callback at platform
clock reading `now`, or the delivery of one SDL event. -/
inductive Item where
  | iterate (now : Int)
  | event (e : SdlEvent)

/-- Dispatch of one platform-loop step to `AppIterate`/`AppEvent`, which
forward to `DoIterate`/`DoEvent` through the appstate pointer
(Sdl3Runner.cpp:112-123). -/
def stepItem (h : Handler) (s : RState) : Item → RState × SdlAppResult
  | Item.iterate now => DoIterate h s now
  | Item.event e => DoEvent h s e

/-- The platform main loop after successful init, modelled from the spec
(section 6): the platform's own driver keeps invoking the iterate and event
entry points, in temporal order, until one of them returns a result other
than SDL_APP_CONTINUE; a finite schedule of steps is processed, and an
exhausted schedule stands for the platform ending the loop itself. -/
def runItems (h : Handler) (s : RState) : List Item → RState × SdlAppResult
  | [] => (s, SdlAppResult.success)
  | it :: rest =>
    let r := stepItem h s it
    match r.2 with
    | SdlAppResult.cont => runItems h r.1 rest
    | res => (r.1, res)

/-- Embedding of the static trampoline `Sdl3Runner::AppInit`
(Sdl3Runner.cpp:96-105): if the thread-local `g_currentSdl3Runner` is null,
log an error and return SDL_APP_FAILURE (without setting `*appstate`);
otherwise set `*appstate` to the instance and run `DoInit`. -/
def AppInit (bound : Bool) (env : Env) (opts : Options) (h : Handler) (s : RState) :
    RState × SdlAppResult :=
  if bound = false then (s, SdlAppResult.failure)
  else DoInit env opts h s

/-- Embedding of `SDL_EnterAppMainCallbacks` as documented by SDL3 and by the
spec (section 6): call the init entry point; on SDL_APP_CONTINUE drive
iterate/event steps until one ends the loop, then call the quit entry point
once; when init itself ends the run, the quit entry point is still called
once (SDL documents that SDL_AppQuit runs even if SDL_AppInit requests
termination).  When init failed because the thread-local instance was null,
`*appstate` was never assigned, so the quit callback would act on a null
state; that path is unreachable from `Start`, which always binds the
instance first, and is modelled as returning without `DoQuit`.  The returned
int is 0 for success and 1 for failure, as with a process exit status. -/
def enterAppMainCallbacks (bound : Bool) (env : Env) (opts : Options) (h : Handler)
    (s : RState) (items : List Item) : RState × Int :=
  let ri := AppInit bound env opts h s
  match ri.2 with
  | SdlAppResult.cont =>
    let rl := runItems h ri.1 items
    (DoQuit rl.1, if rl.2 = SdlAppResult.success then 0 else 1)
  | r =>
    if bound = false then (ri.1, 1)
    else (DoQuit ri.1, if r = SdlAppResult.success then 0 else 1)

/-- Everything `Sdl3Runner::Start` leaves behind when it returns: the runner
state, the thread-local `g_currentSdl3Runner` binding (false = nullptr), the
value returned to the caller of `Start` (`none`, since the C++ signature is
`void Start(HandlerPtr)` — Sdl3Runner.cpp:24), and the local `result` of
`SDL_EnterAppMainCallbacks`, which the code logs and discards
(Sdl3Runner.cpp:36-45). -/
structure StartResult where
  state : RState
  binding : Bool
  ret : Option Int
  sdlResult : Int

/-- Embedding of `Sdl3Runner::Start(HandlerPtr)` (Sdl3Runner.cpp:24-46): store
the handler, initialize the frame clock, set `_running`, bind the thread-local
`g_currentSdl3Runner` to this instance, enter the platform loop, and clear the
thread-local binding before returning (returning nothing to the caller). -/
def Start (env : Env) (opts : Options) (h : Handler) (s : RState) (now0 : Int)
    (items : List Item) : StartResult :=
  let s1 : RState := { s with handlerSet := true }
  let s2 : RState := { s1 with ctx := UpdateCtx.Initialize now0 }
  let s3 : RState := { s2 with running := true }
  let r := enterAppMainCallbacks true env opts h s3 items
  { state := r.1, binding := false, ret := none, sdlResult := r.2 }

/-- A no-quit platform step: not SDL_EVENT_QUIT and not the ESC key, the two
events whose built-in handling requests quit. -/
def noQuitItem : Item → Prop
  | Item.event SdlEvent.quit => False
  | Item.event (SdlEvent.keyDown k) => ¬ (k = SDLK_ESCAPE)
  | _ => True

/-- Fixture: platform resource creation succeeds. -/
def envOk : Env := { createWindowOk := true, createRendererOk := true }

/-- Fixture: no optional callbacks configured. -/
def optsN : Options :=
  { onInited := none, hasOnQuitting := false, hasOnRender := false, hasOnEvent := false }

/-- Fixture: a handler whose hooks all succeed and never request quit. -/
def hNoop : Handler :=
  { startedOk := true
    update := fun _ => (true, none)
    sdl3Event := fun _ => (SdlAppResult.cont, none) }

/-- Fixture: a handler whose `Started` hook fails. -/
def hFailStart : Handler :=
  { startedOk := false
    update := fun _ => (true, none)
    sdl3Event := fun _ => (SdlAppResult.cont, none) }

/-- Fixture: a handler whose `Update` hook requests quit with exit code 2 and
returns true. -/
def hQuit2 : Handler :=
  { startedOk := true
    update := fun _ => (true, some 2)
    sdl3Event := fun _ => (SdlAppResult.cont, none) }

end Sdl3

namespace Fps

/-- Embedding of `FpsCounter` (src/demo/hello-sdl/FpsCounter.h): a capacity,
the ring buffer `_frameTimes` of that length, the next write index `_index`
and the number of recorded samples `_sampleCount`.  The C++ `float` samples
are modelled by exact rationals: the claims under check concern which samples
are aggregated and the resulting quotient, not float rounding. -/
structure FpsCounter where
  capacity : Nat
  frameTimes : List ℚ
  index : Nat
  sampleCount : Nat
deriving DecidableEq, Repr

/-- Embedding of the constructor `FpsCounter(size_t capacity)`
(FpsCounter.cpp:5-9): `_frameTimes(capacity)` value-initializes the vector to
`capacity` zeroes; `_index` and `_sampleCount` start at 0. -/
def FpsCounter.create (capacity : Nat) : FpsCounter :=
  { capacity := capacity
    frameTimes := List.replicate capacity 0
    index := 0
    sampleCount := 0 }

/-- Embedding of `FpsCounter::AddFrame(float deltaSeconds)`
(FpsCounter.cpp:11-18): a positive delta is written at `_index`, the index
advances cyclically, and the sample count saturates at the capacity;
non-positive deltas are ignored. -/
def FpsCounter.AddFrame (c : FpsCounter) (deltaSeconds : ℚ) : FpsCounter :=
  if 0 < deltaSeconds then
    { c with frameTimes := c.frameTimes.set c.index deltaSeconds
             index := (c.index + 1) % c.capacity
             sampleCount := min (c.sampleCount + 1) c.capacity }
  else c

/-- Embedding of `FpsCounter::GetAverageFps()` (FpsCounter.cpp:20-30): 0 when
no sample is recorded, otherwise the sum of the first `_sampleCount` stored
frame times; 0 again when that sum is 0, otherwise `_sampleCount` divided by
the sum. -/
def FpsCounter.GetAverageFps (c : FpsCounter) : ℚ :=
  if c.sampleCount = 0 then 0
  else
    let totalTime : ℚ := (c.frameTimes.take c.sampleCount).sum
    if totalTime = 0 then 0
    else (c.sampleCount : ℚ) / totalTime

/-- A whole sequence of `AddFrame` calls. -/
def addFrames (c : FpsCounter) (ds : List ℚ) : FpsCounter :=
  ds.foldl FpsCounter.AddFrame c

/-- The positive deltas of a sequence, in recording order (the ones
`AddFrame` actually records). -/
def positives (ds : List ℚ) : List ℚ :=
  ds.filter (fun d => 0 < d)

/-- The `k` most recent elements of a list (its suffix of length `k`). -/
def lastN (k : Nat) (l : List ℚ) : List ℚ :=
  l.drop (l.length - k)

/-- Value held by ring-buffer slot `j` after the positive deltas `p` have
been written cyclically into a zero-initialized buffer of size `cap`: the
latest delta whose write position was `j`, i.e. `p` at the largest index
below `p.length` congruent to `j` modulo `cap`, and 0 for a never-written
slot. -/
def slotVal (cap : Nat) (p : List ℚ) (j : Nat) : ℚ :=
  if j < p.length then p.getD (j + cap * ((p.length - 1 - j) / cap)) 0 else 0

/-- Invariant tying an `FpsCounter` state to the list `p` of positive deltas
recorded so far: the stored fields follow `p.length`, every buffer slot holds
its `slotVal`, and the sum the getter aggregates equals the sum of the
`min p.length cap` most recent deltas. -/
def fpsInv (cap : Nat) (c : FpsCounter) (p : List ℚ) : Prop :=
  c.capacity = cap ∧
  c.frameTimes.length = cap ∧
  c.sampleCount = min p.length cap ∧
  c.index = p.length % cap ∧
  (∀ j, j < cap → c.frameTimes.getD j 0 = slotVal cap p j) ∧
  (c.frameTimes.take c.sampleCount).sum = (lastN (min p.length cap) p).sum

end Fps

open Sdl3

section QuitSignalLemmas

/-- RequestQuit always clears the running flag. -/
theorem RequestQuit_running (s : RState) (c : Int) : (RequestQuit s c).running = false := by
  obtain ⟨run, ec, ch, res, w, r, hs, ctx, tr⟩ := s
  rcases ch with _ | ⟨buf, ws⟩
  · rfl
  · rcases ws with _ | ⟨w0, rest⟩
    · rcases buf with _ | v <;> rfl
    · rfl

/-- RequestQuit stores its argument as the exit code (unconditionally). -/
theorem RequestQuit_exitCode (s : RState) (c : Int) : (RequestQuit s c).exitCode = c := by
  obtain ⟨run, ec, ch, res, w, r, hs, ctx, tr⟩ := s
  rcases ch with _ | ⟨buf, ws⟩
  · rfl
  · rcases ws with _ | ⟨w0, rest⟩
    · rcases buf with _ | v <;> rfl
    · rfl

/-- RequestQuit never touches the hook trace. -/
theorem RequestQuit_trace (s : RState) (c : Int) : (RequestQuit s c).trace = s.trace := by
  obtain ⟨run, ec, ch, res, w, r, hs, ctx, tr⟩ := s
  rcases ch with _ | ⟨buf, ws⟩
  · rfl
  · rcases ws with _ | ⟨w0, rest⟩
    · rcases buf with _ | v <;> rfl
    · rfl

/-- A wait on a runner whose running flag is already clear resolves at once
with the stored exit code and leaves the state untouched. -/
theorem WaitForQuit_not_running (s : RState) (wid : Nat) (h : s.running = false) :
    WaitForQuit s wid = (s, WaitResult.immediate s.exitCode) := by
  simp [WaitForQuit, h]

end QuitSignalLemmas

/-- C1 counterexample: the claim says the exit code is first-write-wins and
the second request has no additional effect on already-registered waiters (no
second delivery); in the code `RequestQuit` stores its argument
unconditionally (Sdl3Runner.cpp:57) and performs another `try_send`
(Sdl3Runner.cpp:63), so with waiters 0 and 1 registered, after RequestQuit(5)
then RequestQuit(7) the stored code is 7 (not 5) and waiter 1 — registered
before the first request — is resumed by the second request with the second
code 7: a second delivery does occur. -/
theorem C1_counterexample :
    (RequestQuit (RequestQuit
        { mkRunner with channel := some { buffer := none, waiters := [0, 1] } } 5) 7).exitCode
      = 7 ∧
    ¬ ((RequestQuit (RequestQuit
        { mkRunner with channel := some { buffer := none, waiters := [0, 1] } } 5) 7).exitCode
      = 5) ∧
    (1, 7) ∈ (RequestQuit (RequestQuit
        { mkRunner with channel := some { buffer := none, waiters := [0, 1] } } 5) 7).resumed := by
  decide

/-- C1 (amended): the stored exit code is last-write-wins — after
RequestQuit(a) then RequestQuit(b) it equals b — and a repeated quit request
is not a no-op towards waiters either: each request performs one non-blocking
`try_send`, so with at least two registered waiters the first request resumes
the earliest one with a and the second request resumes the next still-pending
one with b (a second delivery, carrying the second code); a waiter already
resumed by the first request receives nothing further, further waiters stay
registered, and neither call errors or blocks. -/
theorem C1_theorem (s : RState) (a b : Int) (w1 w2 : Nat) (rest : List Nat) (buf : Option Int)
    (h : s.channel = some { buffer := buf, waiters := w1 :: w2 :: rest }) :
    (RequestQuit (RequestQuit s a) b).exitCode = b ∧
    (RequestQuit (RequestQuit s a) b).resumed = s.resumed ++ [(w1, a), (w2, b)] ∧
    (RequestQuit (RequestQuit s a) b).channel = some { buffer := buf, waiters := rest } := by
  obtain ⟨run, ec, ch, res, wi, r, hs, ctx, tr⟩ := s
  cases h
  refine ⟨rfl, ?_, rfl⟩
  simp [RequestQuit]

/-- C1 witness: the amended statement at a concrete state holding two
registered waiters — the first resumes with the first code, the second with
the second code, and the stored code is the second one. -/
theorem C1_witness :
    ({ mkRunner with channel := some { buffer := none, waiters := [4, 7] } } : RState).channel
        = some { buffer := none, waiters := [4, 7] } ∧
    ((RequestQuit (RequestQuit
        { mkRunner with channel := some { buffer := none, waiters := [4, 7] } } 5) 9).exitCode
        = 9 ∧
      (RequestQuit (RequestQuit
        { mkRunner with channel := some { buffer := none, waiters := [4, 7] } } 5) 9).resumed
          = ({ mkRunner with channel := some { buffer := none, waiters := [4, 7] } } : RState).resumed
            ++ [(4, 5), (7, 9)] ∧
      (RequestQuit (RequestQuit
        { mkRunner with channel := some { buffer := none, waiters := [4, 7] } } 5) 9).channel
          = some { buffer := none, waiters := [] }) :=
  ⟨rfl, C1_theorem _ 5 9 4 7 [] none rfl⟩

/-- C3 counterexample: the claim says a quit request delivers the exit code
to every waiter registered at the time of the call and then clears the waiter
set; with two waiters suspended in WaitForQuit, RequestQuit(5) performs a
single `try_send` on the capacity-1 channel (Sdl3Runner.cpp:63), which
completes only the first pending receive: waiter 1 is not resumed and the
waiter set still holds it. -/
theorem C3_counterexample :
    (WaitForQuit { mkRunner with running := true } 0).2 = WaitResult.suspended ∧
    (WaitForQuit (WaitForQuit { mkRunner with running := true } 0).1 1).2
      = WaitResult.suspended ∧
    (RequestQuit (WaitForQuit (WaitForQuit { mkRunner with running := true } 0).1 1).1 5).exitCode
      = 5 ∧
    (0, 5) ∈ (RequestQuit
      (WaitForQuit (WaitForQuit { mkRunner with running := true } 0).1 1).1 5).resumed ∧
    ¬ ((1, 5) ∈ (RequestQuit
      (WaitForQuit (WaitForQuit { mkRunner with running := true } 0).1 1).1 5).resumed) ∧
    (RequestQuit (WaitForQuit (WaitForQuit { mkRunner with running := true } 0).1 1).1 5).channel
      = some { buffer := none, waiters := [1] } := by
  decide

/-- C3 (amended): a quit request delivers the stored exit code to at most one
waiter — the earliest-registered pending receive — which resumes with exactly
the stored code; the remaining registered waiters stay registered and are not
resumed by the call. -/
theorem C3_theorem (s : RState) (c : Int) (w : Nat) (rest : List Nat) (buf : Option Int)
    (h : s.channel = some { buffer := buf, waiters := w :: rest }) :
    (RequestQuit s c).exitCode = c ∧
    (RequestQuit s c).resumed = s.resumed ++ [(w, c)] ∧
    (RequestQuit s c).channel = some { buffer := buf, waiters := rest } := by
  obtain ⟨run, ec, ch, res, wi, r, hs, ctx, tr⟩ := s
  cases h
  exact ⟨rfl, rfl, rfl⟩

/-- C3 witness: the amended statement at a concrete state with two registered
waiters — the first is resumed with the stored code, the second remains. -/
theorem C3_witness :
    ({ mkRunner with channel := some { buffer := none, waiters := [4, 7] } } : RState).channel
        = some { buffer := none, waiters := [4, 7] } ∧
    ((RequestQuit { mkRunner with
        channel := some { buffer := none, waiters := [4, 7] } } 5).exitCode = 5 ∧
      (RequestQuit { mkRunner with
        channel := some { buffer := none, waiters := [4, 7] } } 5).resumed
          = ({ mkRunner with
              channel := some { buffer := none, waiters := [4, 7] } } : RState).resumed
            ++ [(4, 5)] ∧
      (RequestQuit { mkRunner with
        channel := some { buffer := none, waiters := [4, 7] } } 5).channel
          = some { buffer := none, waiters := [7] }) :=
  ⟨rfl, C3_theorem _ 5 4 [7] none rfl⟩

/-- C4: a wait issued after a quit request has completed resolves immediately
with the stored exit code, registers no waiter and does not suspend — the
state is returned unchanged together with the immediate result. -/
theorem C4_theorem (s : RState) (c : Int) (wid : Nat) :
    WaitForQuit (RequestQuit s c) wid
      = (RequestQuit s c, WaitResult.immediate c) := by
  rw [WaitForQuit_not_running (RequestQuit s c) wid (RequestQuit_running s c),
    RequestQuit_exitCode]

/-- C6: once the running flag is cleared, DoIterate is absorbing — it returns
SDL_APP_SUCCESS immediately with the runner state (frame clock, trace and
everything else) completely unchanged. -/
theorem C6_theorem (h : Handler) (s : RState) (now : Int) (hrun : s.running = false) :
    DoIterate h s now = (s, SdlAppResult.success) := by
  simp [DoIterate, hrun]

/-- C6 witness: the absorbing step at the concrete freshly-constructed state,
whose running flag is false. -/
theorem C6_witness :
    (mkRunner.running = false) ∧ DoIterate hNoop mkRunner 5 = (mkRunner, SdlAppResult.success) :=
  ⟨rfl, C6_theorem hNoop mkRunner 5 rfl⟩

/-- C8: the thread-local current-instance binding is null again when Start
returns, on every input (hence on every exit path of the embedded run), and a
platform init callback firing on this thread after the run hits the
null-instance guard: it fails and touches no state, so a subsequent run never
observes a stale binding. -/
theorem C8_theorem (env : Env) (opts : Options) (h : Handler) (s : RState) (now0 : Int)
    (items : List Item) (env2 : Env) (opts2 : Options) (h2 : Handler) (s2 : RState) :
    (Start env opts h s now0 items).binding = false ∧
    AppInit (Start env opts h s now0 items).binding env2 opts2 h2 s2
      = (s2, SdlAppResult.failure) :=
  ⟨rfl, rfl⟩

/-- C9: waiting on a never-started runner does not block — on the
freshly-constructed state the running flag is false and the exit code 0, so
WaitForQuit returns immediately with 0 and without registering or
suspending. -/
theorem C9_theorem (wid : Nat) :
    WaitForQuit mkRunner wid = (mkRunner, WaitResult.immediate 0) :=
  rfl

section DriverLemmas

/-- When window and renderer creation succeed and the OnInited callback does
not fail, DoInit acquires both resources, invokes the Started hook exactly
once, and continues exactly when the hook returns true. -/
theorem DoInit_ok (env : Env) (opts : Options) (h : Handler) (s : RState)
    (hw : env.createWindowOk = true) (hr : env.createRendererOk = true)
    (hi : opts.onInited ≠ some false) :
    DoInit env opts h s
      = ({ s with window := true, renderer := true, trace := s.trace ++ [Hook.started] },
          if h.startedOk = true then SdlAppResult.cont else SdlAppResult.failure) := by
  rcases hoi : opts.onInited with _ | b
  · rcases hst : h.startedOk <;> simp [DoInit, hw, hr, hoi, hst]
  · rcases b
    · exact absurd hoi hi
    · rcases hst : h.startedOk <;> simp [DoInit, hw, hr, hoi, hst]

/-- DoInit never touches the stored exit code, on any path. -/
theorem DoInit_exitCode (env : Env) (opts : Options) (h : Handler) (s : RState) :
    (DoInit env opts h s).1.exitCode = s.exitCode := by
  obtain ⟨cw, cr⟩ := env
  obtain ⟨oi, q1, q2, q3⟩ := opts
  obtain ⟨hst, hu, he⟩ := h
  rcases cw <;> rcases cr <;> rcases oi with _ | b <;> try rcases b
  all_goals rcases hst
  all_goals rfl

/-- DoQuit appends exactly the Stopping hook to the trace. -/
theorem DoQuit_trace (s : RState) : (DoQuit s).trace = s.trace ++ [Hook.stopping] :=
  rfl

/-- DoQuit never touches the stored exit code. -/
theorem DoQuit_exitCode (s : RState) : (DoQuit s).exitCode = s.exitCode :=
  rfl

/-- One platform-loop step only ever appends Update or event hook records to
the trace. -/
theorem stepItem_trace (h : Handler) (s : RState) (it : Item) :
    ∃ ext, (stepItem h s it).1.trace = s.trace ++ ext ∧
      ∀ x ∈ ext, x = Hook.update ∨ ∃ e, x = Hook.event e := by
  rcases it with now | e
  · rcases hrun : s.running
    · exact ⟨[], by simp [stepItem, DoIterate, hrun], by simp⟩
    · refine ⟨[Hook.update], ?_, by simp⟩
      simp only [stepItem, DoIterate, hrun]
      rcases hq : (h.update ({ s with ctx := s.ctx.Tick now }).ctx).2 with _ | c <;>
        rcases hc : (h.update ({ s with ctx := s.ctx.Tick now }).ctx).1 <;>
          simp [hq, hc, RequestQuit_trace]
  · rcases e with _ | k | tag
    · exact ⟨[], by simp [stepItem, DoEvent, RequestQuit_trace], by simp⟩
    · by_cases hk : k = SDLK_ESCAPE
      · exact ⟨[], by simp [stepItem, DoEvent, hk, RequestQuit_trace], by simp⟩
      · refine ⟨[Hook.event (SdlEvent.keyDown k)], ?_, by simp⟩
        simp only [stepItem, DoEvent, hk, if_false, handlerEvent]
        rcases hq : (h.sdl3Event (SdlEvent.keyDown k)).2 with _ | c <;>
          simp [hq, RequestQuit_trace]
    · refine ⟨[Hook.event (SdlEvent.other tag)], ?_, by simp⟩
      simp only [stepItem, DoEvent, handlerEvent]
      rcases hq : (h.sdl3Event (SdlEvent.other tag)).2 with _ | c <;>
        simp [hq, RequestQuit_trace]

/-- The platform loop after init only ever appends Update or event hook
records to the trace. -/
theorem runItems_trace (h : Handler) (items : List Item) : ∀ (s : RState),
    ∃ ext, (runItems h s items).1.trace = s.trace ++ ext ∧
      ∀ x ∈ ext, x = Hook.update ∨ ∃ e, x = Hook.event e := by
  induction items with
  | nil => exact fun s => ⟨[], by simp [runItems], by simp⟩
  | cons it rest ih =>
    intro s
    obtain ⟨ext1, h1, hm1⟩ := stepItem_trace h s it
    rcases hres : (stepItem h s it).2 with _ | _ | _
    · obtain ⟨ext2, h2, hm2⟩ := ih ((stepItem h s it).1)
      refine ⟨ext1 ++ ext2, ?_, ?_⟩
      · simp only [runItems, hres]
        rw [h2, h1, List.append_assoc]
      · intro x hx
        rcases List.mem_append.mp hx with hx | hx
        exacts [hm1 x hx, hm2 x hx]
    · exact ⟨ext1, by simp only [runItems, hres]; exact h1, hm1⟩
    · exact ⟨ext1, by simp only [runItems, hres]; exact h1, hm1⟩

/-- Hook-trace shape of a full bound run of the platform loop, when
resource acquisition and the OnInited callback succeed: Started first,
then only Update/event hooks, then Stopping — whatever Started returns. -/
theorem enter_trace (env : Env) (opts : Options) (h : Handler) (s : RState)
    (items : List Item)
    (hw : env.createWindowOk = true) (hr : env.createRendererOk = true)
    (hi : opts.onInited ≠ some false) :
    ∃ mid, (enterAppMainCallbacks true env opts h s items).1.trace
        = s.trace ++ [Hook.started] ++ mid ++ [Hook.stopping] ∧
      ∀ x ∈ mid, x = Hook.update ∨ ∃ e, x = Hook.event e := by
  have hinit := DoInit_ok env opts h s hw hr hi
  rcases hst : h.startedOk
  · rw [hst] at hinit
    simp only [Bool.false_eq_true, if_false] at hinit
    refine ⟨[], ?_, by simp⟩
    simp [enterAppMainCallbacks, AppInit, hinit, DoQuit_trace]
  · rw [hst] at hinit
    simp only [if_pos] at hinit
    obtain ⟨ext, h2, hm⟩ := runItems_trace h items
      ({ s with window := true, renderer := true, trace := s.trace ++ [Hook.started] })
    refine ⟨ext, ?_, hm⟩
    simp [enterAppMainCallbacks, AppInit, hinit, DoQuit_trace, h2]

/-- A platform-loop step that carries no built-in quit request never changes
the stored exit code, provided the Handler hooks request no quit either. -/
theorem stepItem_exitCode (h : Handler) (s : RState) (it : Item)
    (hu : ∀ ctx, (h.update ctx).2 = none)
    (he : ∀ e, (h.sdl3Event e).2 = none)
    (hq : noQuitItem it) :
    (stepItem h s it).1.exitCode = s.exitCode := by
  rcases it with now | e
  · rcases hrun : s.running
    · simp [stepItem, DoIterate, hrun]
    · simp only [stepItem, DoIterate, hrun]
      rcases hc : (h.update ({ s with ctx := s.ctx.Tick now }).ctx).1 <;>
        simp [hu, hc]
  · rcases e with _ | k | tag
    · simp [noQuitItem] at hq
    · have hk : ¬ (k = SDLK_ESCAPE) := hq
      simp [stepItem, DoEvent, hk, handlerEvent, he]
    · simp [stepItem, DoEvent, handlerEvent, he]

/-- The platform loop never changes the stored exit code when no quit is
requested by any step or hook. -/
theorem runItems_exitCode (h : Handler)
    (hu : ∀ ctx, (h.update ctx).2 = none)
    (he : ∀ e, (h.sdl3Event e).2 = none)
    (items : List Item) : ∀ (s : RState), (∀ it ∈ items, noQuitItem it) →
    (runItems h s items).1.exitCode = s.exitCode := by
  induction items with
  | nil => intro s _; simp [runItems]
  | cons it rest ih =>
    intro s hq
    have h1 := stepItem_exitCode h s it hu he (hq it (by simp))
    rcases hres : (stepItem h s it).2 with _ | _ | _
    · simp only [runItems, hres]
      rw [ih ((stepItem h s it).1) (fun i hi => hq i (List.mem_cons_of_mem _ hi))]
      exact h1
    · simp only [runItems, hres]; exact h1
    · simp only [runItems, hres]; exact h1

/-- A full bound run never changes the stored exit code when no quit is
requested by any step or hook. -/
theorem enter_exitCode (env : Env) (opts : Options) (h : Handler) (s : RState)
    (items : List Item)
    (hu : ∀ ctx, (h.update ctx).2 = none)
    (he : ∀ e, (h.sdl3Event e).2 = none)
    (hq : ∀ it ∈ items, noQuitItem it) :
    (enterAppMainCallbacks true env opts h s items).1.exitCode = s.exitCode := by
  rcases hres : (DoInit env opts h s).2 with _ | _ | _
  · have hform : (enterAppMainCallbacks true env opts h s items).1
        = DoQuit (runItems h (DoInit env opts h s).1 items).1 := by
      simp [enterAppMainCallbacks, AppInit, hres]
    rw [hform, DoQuit_exitCode, runItems_exitCode h hu he items _ hq, DoInit_exitCode]
  · have hform : (enterAppMainCallbacks true env opts h s items).1
        = DoQuit (DoInit env opts h s).1 := by
      simp [enterAppMainCallbacks, AppInit, hres]
    rw [hform, DoQuit_exitCode, DoInit_exitCode]
  · have hform : (enterAppMainCallbacks true env opts h s items).1
        = DoQuit (DoInit env opts h s).1 := by
      simp [enterAppMainCallbacks, AppInit, hres]
    rw [hform, DoQuit_exitCode, DoInit_exitCode]

end DriverLemmas

/-- C2 counterexample: the claim says that after a failed Started hook the
Stopping hook is never invoked and the run ends with a failure exit code; in
the code SDL still invokes the quit callback after failed init, so `DoQuit`
runs the Stopping hook (Sdl3Runner.cpp:189), and the stored exit code remains
the initial success value 0 — the failing SDL_APP_FAILURE result is only
logged and discarded by `Start`. -/
theorem C2_counterexample :
    Hook.stopping ∈ (Start envOk optsN hFailStart mkRunner 0 [Item.iterate 1]).state.trace ∧
    (Start envOk optsN hFailStart mkRunner 0 [Item.iterate 1]).state.exitCode = 0 := by
  decide

/-- C2 (amended): if the Started hook fails during init (resources and
OnInited succeeding), the Update and event hooks are never invoked, but the
Stopping hook is still invoked exactly once during teardown, the stored exit
code remains the initial success value 0, and the failure is visible only in
the platform loop's discarded result. -/
theorem C2_theorem (env : Env) (opts : Options) (handler : Handler) (items : List Item)
    (now0 : Int)
    (hw : env.createWindowOk = true) (hr : env.createRendererOk = true)
    (hi : opts.onInited ≠ some false) (hfail : handler.startedOk = false) :
    (Start env opts handler mkRunner now0 items).state.trace = [Hook.started, Hook.stopping] ∧
    (Start env opts handler mkRunner now0 items).state.exitCode = 0 ∧
    (Start env opts handler mkRunner now0 items).sdlResult = 1 := by
  have hinit := DoInit_ok env opts handler
    ({ mkRunner with handlerSet := true, ctx := UpdateCtx.Initialize now0, running := true })
    hw hr hi
  rw [hfail] at hinit
  simp only [Bool.false_eq_true, if_false] at hinit
  simp [mkRunner] at hinit
  refine ⟨?_, ?_, ?_⟩ <;>
    simp [Start, enterAppMainCallbacks, AppInit, hinit, DoQuit_trace, DoQuit_exitCode, mkRunner]

/-- C2 witness: the amended statement at a concrete failing-start run. -/
theorem C2_witness :
    envOk.createWindowOk = true ∧ envOk.createRendererOk = true ∧
    optsN.onInited ≠ some false ∧ hFailStart.startedOk = false ∧
    ((Start envOk optsN hFailStart mkRunner 3 []).state.trace = [Hook.started, Hook.stopping] ∧
      (Start envOk optsN hFailStart mkRunner 3 []).state.exitCode = 0 ∧
      (Start envOk optsN hFailStart mkRunner 3 []).sdlResult = 1) :=
  ⟨rfl, rfl, by decide, rfl, C2_theorem envOk optsN hFailStart [] 3 rfl rfl (by decide) rfl⟩

/-- C5 counterexample: the claim says the blocking entry point returns the
final exit code to its caller; `Start` has return type void
(Sdl3Runner.cpp:24), so in a run whose final stored exit code is 2 the caller
receives nothing — the returned value is not the stored exit code. -/
theorem C5_counterexample :
    (Start envOk optsN hQuit2 mkRunner 0 [Item.iterate 1, Item.iterate 2]).state.exitCode = 2 ∧
    (Start envOk optsN hQuit2 mkRunner 0 [Item.iterate 1, Item.iterate 2]).ret = none ∧
    ¬ ((Start envOk optsN hQuit2 mkRunner 0 [Item.iterate 1, Item.iterate 2]).ret
        = some ((Start envOk optsN hQuit2 mkRunner 0
            [Item.iterate 1, Item.iterate 2]).state.exitCode)) := by
  decide

/-- C5 (amended): the blocking entry point drives the platform loop until
termination but returns no value to its caller; the final exit code is kept
in the runner's stored exit-code field, which still holds the success default
0 after natural termination whenever no exit code was explicitly set during
the run. -/
theorem C5_theorem (env : Env) (opts : Options) (handler : Handler) (items : List Item)
    (now0 : Int)
    (hu : ∀ ctx, (handler.update ctx).2 = none)
    (he : ∀ e, (handler.sdl3Event e).2 = none)
    (hq : ∀ it ∈ items, noQuitItem it) :
    (Start env opts handler mkRunner now0 items).state.exitCode = 0 ∧
    (Start env opts handler mkRunner now0 items).ret = none := by
  constructor
  · exact enter_exitCode env opts handler
      ({ mkRunner with handlerSet := true, ctx := UpdateCtx.Initialize now0, running := true })
      items hu he hq
  · rfl

/-- C5 witness: the amended statement at a concrete quiet run. -/
theorem C5_witness :
    (∀ ctx, (hNoop.update ctx).2 = none) ∧ (∀ e, (hNoop.sdl3Event e).2 = none) ∧
    (∀ it ∈ [Item.iterate 1], noQuitItem it) ∧
    ((Start envOk optsN hNoop mkRunner 0 [Item.iterate 1]).state.exitCode = 0 ∧
      (Start envOk optsN hNoop mkRunner 0 [Item.iterate 1]).ret = none) :=
  ⟨fun _ => rfl, fun _ => rfl, by simp [noQuitItem],
    C5_theorem envOk optsN hNoop [Item.iterate 1] 0 (fun _ => rfl) (fun _ => rfl)
      (by simp [noQuitItem])⟩

/-- C7: in every platform-driven execution whose resource acquisition and
OnInited callback succeed, the Started hook is invoked exactly once and
strictly before any Update/event hook, and the Stopping hook is invoked
exactly once and strictly after the last Update/event hook, for any schedule
of iterations and events (including none). -/
theorem C7_theorem (env : Env) (opts : Options) (handler : Handler) (items : List Item)
    (now0 : Int)
    (hw : env.createWindowOk = true) (hr : env.createRendererOk = true)
    (hi : opts.onInited ≠ some false) :
    ∃ mid, (Start env opts handler mkRunner now0 items).state.trace
        = Hook.started :: (mid ++ [Hook.stopping]) ∧
      ∀ x ∈ mid, x = Hook.update ∨ ∃ e, x = Hook.event e := by
  obtain ⟨mid, h1, hm⟩ := enter_trace env opts handler
    ({ mkRunner with handlerSet := true, ctx := UpdateCtx.Initialize now0, running := true })
    items hw hr hi
  refine ⟨mid, ?_, hm⟩
  have hs : (Start env opts handler mkRunner now0 items).state
      = (enterAppMainCallbacks true env opts handler
          { mkRunner with handlerSet := true, ctx := UpdateCtx.Initialize now0, running := true }
          items).1 := rfl
  rw [hs, h1]
  simp [mkRunner]

/-- C7 witness: the ordering statement at a concrete run with one iteration
and one forwarded event. -/
theorem C7_witness :
    envOk.createWindowOk = true ∧ envOk.createRendererOk = true ∧
    optsN.onInited ≠ some false ∧
    (∃ mid,
      (Start envOk optsN hNoop mkRunner 0
          [Item.iterate 1, Item.event (SdlEvent.other 2)]).state.trace
        = Hook.started :: (mid ++ [Hook.stopping]) ∧
      ∀ x ∈ mid, x = Hook.update ∨ ∃ e, x = Hook.event e) :=
  ⟨rfl, rfl, by decide,
    C7_theorem envOk optsN hNoop [Item.iterate 1, Item.event (SdlEvent.other 2)] 0 rfl rfl
      (by decide)⟩

namespace Fps

theorem getD_replicate (n j : Nat) : (List.replicate n (0:ℚ)).getD j 0 = 0 := by
  induction n generalizing j with
  | zero => simp [List.getD]
  | succ m ih =>
    rcases j with _ | j
    · rfl
    · simp [List.replicate, ih j]

theorem getD_set_self (l : List ℚ) (i : Nat) (v : ℚ) (h : i < l.length) :
    (l.set i v).getD i 0 = v := by
  induction l generalizing i with
  | nil => simp at h
  | cons a t ih =>
    rcases i with _ | i
    · rfl
    · simpa [List.set] using ih i (by simpa using h)

theorem getD_set_ne (l : List ℚ) (i j : Nat) (v : ℚ) (hne : i ≠ j) :
    (l.set i v).getD j 0 = l.getD j 0 := by
  induction l generalizing i j with
  | nil => simp [List.set]
  | cons a t ih =>
    rcases i with _ | i
    · rcases j with _ | j
      · exact absurd rfl hne
      · rfl
    · rcases j with _ | j
      · rfl
      · simpa [List.set] using ih i j (fun hc => hne (by rw [hc]))

theorem sum_take_set (l : List ℚ) (n : Nat) (v : ℚ) (h : n < l.length) :
    ((l.set n v).take (n+1)).sum = (l.take n).sum + v := by
  induction l generalizing n with
  | nil => simp at h
  | cons a t ih =>
    rcases n with _ | n
    · simp
    · simp only [List.set, List.take_succ_cons, List.sum_cons]
      rw [ih n (by simpa using h)]
      ring

theorem sum_set (l : List ℚ) (i : Nat) (v : ℚ) (h : i < l.length) :
    (l.set i v).sum = l.sum - l.getD i 0 + v := by
  induction l generalizing i with
  | nil => simp at h
  | cons a t ih =>
    rcases i with _ | i
    · simp [List.getD]
      ring
    · simp only [List.set, List.sum_cons, List.getD_cons_succ]
      rw [ih i (by simpa using h)]
      ring

theorem drop_eq_getD_cons (l : List ℚ) (i : Nat) (h : i < l.length) :
    l.drop i = l.getD i 0 :: l.drop (i+1) := by
  induction l generalizing i with
  | nil => simp at h
  | cons a t ih =>
    rcases i with _ | i
    · simp [List.getD]
    · simpa using ih i (by simpa using h)

theorem drop_append_singleton (p : List ℚ) (d : ℚ) (i : Nat) (h : i ≤ p.length) :
    (p ++ [d]).drop i = p.drop i ++ [d] := by
  induction p generalizing i with
  | nil => simp at h; simp [h]
  | cons a t ih =>
    rcases i with _ | i
    · simp
    · simpa using ih i (by simpa using h)


theorem div_pred_eq_of_mod_ne (cap m : Nat) (hcap : 1 ≤ cap) (hm : m % cap ≠ 0) :
    (m - 1) / cap = m / cap := by
  have h1 := Nat.mod_add_div m cap
  have hr : 1 ≤ m % cap := Nat.one_le_iff_ne_zero.mpr hm
  have hlt : m % cap < cap := Nat.mod_lt _ (by omega)
  have h2 : m - 1 = (m % cap - 1) + cap * (m / cap) := by omega
  rw [h2, Nat.add_mul_div_left _ _ (by omega : 0 < cap), Nat.div_eq_of_lt (by omega)]
  omega

theorem mod_sub_ne (cap n j : Nat) (hj : j < cap) (hjn : j < n)
    (hne : j ≠ n % cap) : (n - j) % cap ≠ 0 := by
  intro h0
  have hd : cap ∣ (n - j) := Nat.dvd_of_mod_eq_zero h0
  have hmeq : j % cap = n % cap := (Nat.modEq_iff_dvd' (Nat.le_of_lt hjn)).mpr hd
  rw [Nat.mod_eq_of_lt hj] at hmeq
  exact hne hmeq

theorem div_shift_eq (cap n j : Nat) (hcap : 1 ≤ cap) (hj : j < cap) (hjn : j < n)
    (hne : j ≠ n % cap) : (n - 1 - j) / cap = (n - j) / cap := by
  have h := div_pred_eq_of_mod_ne cap (n - j) hcap (mod_sub_ne cap n j hj hjn hne)
  have h2 : n - 1 - j = (n - j) - 1 := by omega
  rw [h2, h]

theorem written_index (cap n : Nat) (hcap : 1 ≤ cap) :
    n % cap + cap * ((n - n % cap) / cap) = n := by
  have h1 := Nat.mod_add_div n cap
  have h2 : n - n % cap = cap * (n / cap) := by omega
  rw [h2, Nat.mul_div_cancel_left _ (by omega : 0 < cap)]
  omega

theorem replaced_index (cap n : Nat) (hcap : 1 ≤ cap) (hn : cap ≤ n) :
    n % cap + cap * ((n - 1 - n % cap) / cap) = n - cap := by
  have h1 := Nat.mod_add_div n cap
  have hq : 1 ≤ n / cap := (Nat.one_le_div_iff (by omega)).mpr hn
  have h3 : cap * (n / cap) = cap * (n / cap - 1) + cap := by
    have h4 : n / cap = (n / cap - 1) + 1 := by omega
    calc cap * (n / cap) = cap * ((n / cap - 1) + 1) := by rw [← h4]
    _ = cap * (n / cap - 1) + cap := by ring
  have hmlt : n % cap < cap := Nat.mod_lt _ (by omega)
  have h2 : n - 1 - n % cap = (cap - 1) + cap * (n / cap - 1) := by omega
  rw [h2, Nat.add_mul_div_left _ _ (by omega : 0 < cap), Nat.div_eq_of_lt (by omega)]
  simp only [Nat.zero_add]
  omega

theorem old_index_lt (cap n j : Nat) (hjn : j < n) :
    j + cap * ((n - 1 - j) / cap) < n := by
  have h := Nat.div_mul_le_self (n - 1 - j) cap
  have h2 : cap * ((n - 1 - j) / cap) ≤ n - 1 - j := by
    calc cap * ((n - 1 - j) / cap) = ((n - 1 - j) / cap) * cap := Nat.mul_comm _ _
    _ ≤ n - 1 - j := h
  omega


theorem fpsInv_create (cap : Nat) : fpsInv cap (FpsCounter.create cap) [] := by
  refine ⟨rfl, by simp [FpsCounter.create], by simp [FpsCounter.create],
    by simp [FpsCounter.create], ?_, by simp [FpsCounter.create, lastN]⟩
  intro j hj
  simp [FpsCounter.create, slotVal, getD_replicate]


theorem fpsInv_step (cap : Nat) (hcap : 1 ≤ cap) (c : FpsCounter) (p : List ℚ)
    (h : fpsInv cap c p) (d : ℚ) (hd : 0 < d) :
    fpsInv cap (c.AddFrame d) (p ++ [d]) := by
  obtain ⟨hc, hlen, hsc, hix, hslot, hsum⟩ := h
  have hAF : c.AddFrame d = { c with
      frameTimes := c.frameTimes.set c.index d
      index := (c.index + 1) % c.capacity
      sampleCount := min (c.sampleCount + 1) c.capacity } := by
    simp [FpsCounter.AddFrame, hd]
  rw [hAF]
  have hixlt : c.index < cap := by
    rw [hix]
    exact Nat.mod_lt _ (by omega)
  refine ⟨hc, by simp [hlen], ?_, ?_, ?_, ?_⟩
  · show min (c.sampleCount + 1) c.capacity = min (p ++ [d]).length cap
    rw [hsc, hc, List.length_append]
    simp only [List.length_singleton]
    omega
  · show (c.index + 1) % c.capacity = (p ++ [d]).length % cap
    rw [hix, hc, List.length_append]
    simp only [List.length_singleton]
    exact Nat.mod_add_mod p.length cap 1 ▸ rfl
  · intro j hj
    by_cases hji : j = p.length % cap
    · have hj2 : j = c.index := by rw [hji, hix]
      have hset : (c.frameTimes.set c.index d).getD j 0 = d := by
        rw [hj2]
        exact getD_set_self _ _ _ (by rw [hlen]; exact hixlt)
      rw [hset]
      have hjlt : j < (p ++ [d]).length := by
        simp only [List.length_append, List.length_singleton]
        have := Nat.mod_le p.length cap
        omega
      simp only [slotVal, if_pos hjlt]
      have hidx : j + cap * (((p ++ [d]).length - 1 - j) / cap) = p.length := by
        simp only [List.length_append, List.length_singleton]
        have h5 : p.length + 1 - 1 - j = p.length - j := by omega
        rw [h5, hji]
        exact written_index cap p.length hcap
      rw [hidx, List.getD_append_right _ _ _ _ (Nat.le_refl p.length)]
      simp
    · have hj2 : j ≠ c.index := by rw [hix]; exact hji
      rw [getD_set_ne _ _ _ _ (fun hc2 => hj2 hc2.symm)]
      rw [hslot j hj]
      by_cases hjn : j < p.length
      · have hlt1 : j < (p ++ [d]).length := by
          simp only [List.length_append, List.length_singleton]
          omega
        simp only [slotVal, if_pos hjn, if_pos hlt1]
        have hshift : ((p ++ [d]).length - 1 - j) / cap = (p.length - 1 - j) / cap := by
          simp only [List.length_append, List.length_singleton]
          have h5 : p.length + 1 - 1 - j = p.length - j := by omega
          rw [h5]
          exact (div_shift_eq cap p.length j hcap hj hjn hji).symm
        rw [hshift, List.getD_append _ _ _ _ (old_index_lt cap p.length j hjn)]
      · have hjn2 : ¬ (j < (p ++ [d]).length) := by
          simp only [List.length_append, List.length_singleton]
          intro hcon
          have hjeq : j = p.length := by omega
          have hplt : p.length < cap := by omega
          exact hji (by rw [hjeq, Nat.mod_eq_of_lt hplt])
        simp only [slotVal, if_neg hjn, if_neg hjn2]
  · show ((c.frameTimes.set c.index d).take (min (c.sampleCount + 1) c.capacity)).sum
        = (lastN (min (p ++ [d]).length cap) (p ++ [d])).sum
    rcases Nat.lt_or_ge p.length cap with hncap | hncap
    · have hi : c.index = p.length := by rw [hix]; exact Nat.mod_eq_of_lt hncap
      have hm1 : min p.length cap = p.length := Nat.min_eq_left (Nat.le_of_lt hncap)
      have hm2 : min (c.sampleCount + 1) c.capacity = p.length + 1 := by
        rw [hsc, hc, hm1]
        exact Nat.min_eq_left (by omega)
      have hm3 : min (p ++ [d]).length cap = p.length + 1 := by
        simp only [List.length_append, List.length_singleton]
        exact Nat.min_eq_left (by omega)
      rw [hm2, hm3, hi]
      rw [sum_take_set _ _ _ (by rw [hlen]; omega)]
      have hsum2 : (c.frameTimes.take p.length).sum = p.sum := by
        have h9 := hsum
        rw [hsc, hm1] at h9
        rw [h9]
        simp [lastN]
      rw [hsum2]
      have hfull : lastN (p.length + 1) (p ++ [d]) = p ++ [d] := by
        simp [lastN]
      rw [hfull]
      simp
    · have hm1 : min p.length cap = cap := Nat.min_eq_right hncap
      have hm2 : min (c.sampleCount + 1) c.capacity = cap := by
        rw [hsc, hc, hm1]
        exact Nat.min_eq_right (by omega)
      have hm3 : min (p ++ [d]).length cap = cap := by
        simp only [List.length_append, List.length_singleton]
        exact Nat.min_eq_right (by omega)
      rw [hm2, hm3]
      have hlen2 : (c.frameTimes.set c.index d).length = cap := by simp [hlen]
      have htake : (c.frameTimes.set c.index d).take cap = c.frameTimes.set c.index d := by
        rw [← hlen2]
        exact List.take_length _
      rw [htake, sum_set _ _ _ (by rw [hlen]; exact hixlt)]
      have htake2 : c.frameTimes.take c.sampleCount = c.frameTimes := by
        rw [hsc, hm1, ← hlen]
        exact List.take_length _
      have hsum2 : c.frameTimes.sum = (lastN cap p).sum := by
        have h9 := hsum
        rw [htake2, hm1] at h9
        exact h9
      have hgetD : c.frameTimes.getD c.index 0 = p.getD (p.length - cap) 0 := by
        rw [hslot c.index hixlt]
        simp only [slotVal]
        have hilt2 : c.index < p.length := by
          rw [hix]
          have := Nat.mod_lt p.length (show 0 < cap by omega)
          omega
        rw [if_pos hilt2, hix, replaced_index cap p.length hcap hncap]
      rw [hsum2, hgetD]
      have hL : lastN cap p = p.getD (p.length - cap) 0 :: p.drop (p.length - cap + 1) := by
        simp only [lastN]
        exact drop_eq_getD_cons p (p.length - cap) (by omega)
      have hR : lastN cap (p ++ [d]) = p.drop (p.length + 1 - cap) ++ [d] := by
        simp only [lastN, List.length_append, List.length_singleton]
        exact drop_append_singleton p d (p.length + 1 - cap) (by omega)
      rw [hL, hR]
      simp only [List.sum_cons, List.sum_append, List.sum_singleton, List.sum_nil]
      have h8 : p.length - cap + 1 = p.length + 1 - cap := by omega
      rw [h8]
      ring


theorem addFrames_append_singleton (c : FpsCounter) (ds : List ℚ) (d : ℚ) :
    addFrames c (ds ++ [d]) = (addFrames c ds).AddFrame d := by
  simp [addFrames, List.foldl_append]

theorem positives_append_singleton (ds : List ℚ) (d : ℚ) :
    positives (ds ++ [d]) = positives ds ++ (if 0 < d then [d] else []) := by
  by_cases hd : 0 < d <;> simp [positives, List.filter_append, hd]

theorem fpsInv_addFrames (cap : Nat) (hcap : 1 ≤ cap) (ds : List ℚ) :
    fpsInv cap (addFrames (FpsCounter.create cap) ds) (positives ds) := by
  induction ds using List.reverseRecOn with
  | nil => exact fpsInv_create cap
  | append_singleton ds d ih =>
    rw [addFrames_append_singleton, positives_append_singleton]
    by_cases hd : 0 < d
    · rw [if_pos hd]
      exact fpsInv_step cap hcap _ _ ih d hd
    · rw [if_neg hd]
      have hno : (addFrames (FpsCounter.create cap) ds).AddFrame d
          = addFrames (FpsCounter.create cap) ds := by
        simp [FpsCounter.AddFrame, hd]
      rw [hno, List.append_nil]
      exact ih

theorem positives_pos (ds : List ℚ) : ∀ x ∈ positives ds, 0 < x := by
  intro x hx
  simp only [positives, List.mem_filter, decide_eq_true_eq] at hx
  exact hx.2

end Fps

open Fps

/-- C10: FpsCounter sliding-window average — for every capacity ≥ 1 and
every sequence of AddFrame calls, non-positive deltas leave the state
unchanged; GetAverageFps is 0 when no positive delta has been recorded (and
whenever the aggregated stored deltas sum to 0); otherwise it equals k
divided by the sum of the k most recently recorded positive deltas, where
k = min(number of positive deltas recorded, capacity). -/
theorem C10_theorem (cap : Nat) (hcap : 1 ≤ cap) (ds : List ℚ) :
    (∀ (c : FpsCounter) (d : ℚ), d ≤ 0 → c.AddFrame d = c) ∧
    (∀ c : FpsCounter, (c.frameTimes.take c.sampleCount).sum = 0 → c.GetAverageFps = 0) ∧
    ((positives ds).length = 0 → (addFrames (FpsCounter.create cap) ds).GetAverageFps = 0) ∧
    (0 < (positives ds).length →
      (addFrames (FpsCounter.create cap) ds).GetAverageFps
        = ((min (positives ds).length cap : Nat) : ℚ)
            / (lastN (min (positives ds).length cap) (positives ds)).sum) := by
  obtain ⟨hc, hlen, hsc, hix, hslot, hsum⟩ := fpsInv_addFrames cap hcap ds
  refine ⟨?_, ?_, ?_, ?_⟩
  · intro c d hd
    have hd2 : ¬ (0 < d) := not_lt.mpr hd
    simp [FpsCounter.AddFrame, hd2]
  · intro c h0
    rcases hc0 : c.sampleCount with _ | m
    · simp [FpsCounter.GetAverageFps, hc0]
    · rw [hc0] at h0
      simp [FpsCounter.GetAverageFps, hc0, h0]
  · intro h0
    have hz : (addFrames (FpsCounter.create cap) ds).sampleCount = 0 := by
      rw [hsc, h0]
      simp
    simp [FpsCounter.GetAverageFps, hz]
  · intro hpos
    have hk1 : 1 ≤ min (positives ds).length cap := Nat.le_min.mpr ⟨hpos, hcap⟩
    have hkne : (addFrames (FpsCounter.create cap) ds).sampleCount ≠ 0 := by
      rw [hsc]
      omega
    have hklen : (lastN (min (positives ds).length cap) (positives ds)).length
        = min (positives ds).length cap := by
      simp only [lastN, List.length_drop]
      omega
    have hne : lastN (min (positives ds).length cap) (positives ds) ≠ [] := by
      intro hnil
      rw [hnil] at hklen
      simp at hklen
      omega
    have hmem : ∀ x ∈ lastN (min (positives ds).length cap) (positives ds), 0 < x :=
      fun x hx => positives_pos ds x (List.drop_subset _ _ hx)
    have htpos : 0 < (lastN (min (positives ds).length cap) (positives ds)).sum :=
      List.sum_pos _ hmem hne
    simp only [FpsCounter.GetAverageFps, if_neg hkne]
    rw [hsum, if_neg (ne_of_gt htpos), hsc]

/-- C10 witness: the sliding-window statement at capacity 2 on the delta
sequence [1, -3, 2, 4], whose positive deltas are [1, 2, 4]. -/
theorem C10_witness :
    1 ≤ 2 ∧
    ((∀ (c : FpsCounter) (d : ℚ), d ≤ 0 → c.AddFrame d = c) ∧
      (∀ c : FpsCounter, (c.frameTimes.take c.sampleCount).sum = 0 → c.GetAverageFps = 0) ∧
      ((positives [1, -3, 2, 4]).length = 0 →
        (addFrames (FpsCounter.create 2) [1, -3, 2, 4]).GetAverageFps = 0) ∧
      (0 < (positives [1, -3, 2, 4]).length →
        (addFrames (FpsCounter.create 2) [1, -3, 2, 4]).GetAverageFps
          = ((min (positives [1, -3, 2, 4]).length 2 : Nat) : ℚ)
              / (lastN (min (positives [1, -3, 2, 4]).length 2)
                  (positives [1, -3, 2, 4])).sum)) :=
  ⟨by decide, C10_theorem 2 (by decide) [1, -3, 2, 4]⟩
